import Mathlib

/-!
Verification of the simcoder-pytorch poly-query ranking pipeline.

The Python sources under simcoder/ and sisap2023/ are shallowly embedded:
floating-point values are modelled as real numbers, numpy arrays as lists,
and fallible numpy operations as Except-valued functions.  Modules that the
repository imports but whose sources are absent (similarity.py, nsimplex.py,
msed.py and some count_cats helpers) are modelled from the specification and
are marked as such in their doc comments.
-/

namespace Simcoder

/-! ### Model of np.argsort

The pipelines order candidates with np.argsort, whose default kind is an
unstable introsort: numpy guarantees only that the returned index list is a
permutation putting the values in non-decreasing order; the relative order
of equal values is implementation defined.  ArgsortSpec captures exactly
that documented contract, and argsortStable is the refinement obtained by
requesting a stable kind (ties broken by original index). -/

/-- Contract of np.argsort on a value list a: the output p is a permutation
of all indices of a, and the values of a read along p are non-decreasing. -/
def ArgsortSpec {α : Type} [LinearOrder α] [Inhabited α] (a : List α) (p : List ℕ) : Prop :=
  p.Perm (List.range a.length) ∧ (p.map (fun j => a.getD j default)).Sorted (· ≤ ·)

/-- Stable tie-breaking rule: indices with equal values keep their original
relative order in the output permutation. -/
def StableTieRule {α : Type} [LinearOrder α] [Inhabited α] (a : List α) (p : List ℕ) : Prop :=
  ∀ i j : ℕ, i < j → j < a.length → a.getD i default = a.getD j default →
    p.indexOf i < p.indexOf j

/-- Total order on indices of a: by value, with ties broken by index.
Sorting the index range by this relation is the stable argsort. -/
def argRel {α : Type} [LinearOrder α] [Inhabited α] (a : List α) (i j : ℕ) : Prop :=
  a.getD i default < a.getD j default ∨
    (a.getD i default = a.getD j default ∧ i ≤ j)

instance argRel.decidableRel {α : Type} [LinearOrder α] [Inhabited α] (a : List α) :
    DecidableRel (argRel a) :=
  fun _ _ => inferInstanceAs (Decidable (_ ∨ _))

theorem argRel.total {α : Type} [LinearOrder α] [Inhabited α] (a : List α) :
    ∀ i j, argRel a i j ∨ argRel a j i := by
  intro i j
  rcases lt_trichotomy (a.getD i default) (a.getD j default) with h | h | h
  · exact Or.inl (Or.inl h)
  · rcases Nat.le_total i j with hij | hij
    · exact Or.inl (Or.inr ⟨h, hij⟩)
    · exact Or.inr (Or.inr ⟨h.symm, hij⟩)
  · exact Or.inr (Or.inl h)

theorem argRel.trans {α : Type} [LinearOrder α] [Inhabited α] (a : List α) :
    ∀ i j k, argRel a i j → argRel a j k → argRel a i k := by
  intro i j k hij hjk
  rcases hij with h1 | ⟨h1, hle1⟩
  · rcases hjk with h2 | ⟨h2, _⟩
    · exact Or.inl (h1.trans h2)
    · exact Or.inl (h2 ▸ h1)
  · rcases hjk with h2 | ⟨h2, hle2⟩
    · exact Or.inl (h1 ▸ h2)
    · exact Or.inr ⟨h1.trans h2, hle1.trans hle2⟩

instance argRel.isTotal {α : Type} [LinearOrder α] [Inhabited α] (a : List α) :
    IsTotal ℕ (argRel a) :=
  ⟨argRel.total a⟩

instance argRel.isTrans {α : Type} [LinearOrder α] [Inhabited α] (a : List α) :
    IsTrans ℕ (argRel a) :=
  ⟨fun i j k => argRel.trans a i j k⟩

/-- Model of np.argsort with a stable kind: sort the index range of a by
value, ties broken by original index. -/
def argsortStable {α : Type} [LinearOrder α] [Inhabited α] (a : List α) : List ℕ :=
  List.insertionSort (argRel a) (List.range a.length)

theorem argsortStable_perm {α : Type} [LinearOrder α] [Inhabited α] (a : List α) :
    (argsortStable a).Perm (List.range a.length) :=
  List.perm_insertionSort _ _

theorem argsortStable_sortedRel {α : Type} [LinearOrder α] [Inhabited α] (a : List α) :
    (argsortStable a).Sorted (argRel a) :=
  List.sorted_insertionSort _ _

theorem argsortStable_spec {α : Type} [LinearOrder α] [Inhabited α] (a : List α) :
    ArgsortSpec a (argsortStable a) := by
  refine ⟨argsortStable_perm a, ?_⟩
  have hs := argsortStable_sortedRel a
  unfold List.Sorted at hs ⊢
  refine List.Pairwise.map _ ?_ hs
  intro i j hij
  rcases hij with h | ⟨h, _⟩
  · exact le_of_lt h
  · exact le_of_eq h

theorem argsortStable_nodup {α : Type} [LinearOrder α] [Inhabited α] (a : List α) :
    (argsortStable a).Nodup :=
  (argsortStable_perm a).nodup_iff.mpr (List.nodup_range _)

theorem argsortStable_stable {α : Type} [LinearOrder α] [Inhabited α] (a : List α) :
    StableTieRule a (argsortStable a) := by
  intro i j hij hj heq
  set p := argsortStable a with hp
  have hmemi : i ∈ p := (argsortStable_perm a).mem_iff.mpr
    (List.mem_range.mpr (lt_trans hij hj))
  have hmemj : j ∈ p := (argsortStable_perm a).mem_iff.mpr (List.mem_range.mpr hj)
  have hii : p.indexOf i < p.length := List.indexOf_lt_length.mpr hmemi
  have hjj : p.indexOf j < p.length := List.indexOf_lt_length.mpr hmemj
  have hne : p.indexOf i ≠ p.indexOf j := by
    intro hcontra
    have : i = j := by
      have h1 : p.get ⟨p.indexOf i, hii⟩ = i := List.indexOf_get hii
      have h2 : p.get ⟨p.indexOf j, hjj⟩ = j := List.indexOf_get hjj
      rw [← h1, ← h2]
      congr 1
      exact Fin.ext hcontra
    exact absurd this (Nat.ne_of_lt hij)
  rcases Nat.lt_or_ge (p.indexOf i) (p.indexOf j) with h | h
  · exact h
  · exfalso
    have hlt : p.indexOf j < p.indexOf i := lt_of_le_of_ne h (Ne.symm hne)
    have hpair : List.Pairwise (argRel a) p := argsortStable_sortedRel a
    have := (List.pairwise_iff_getElem).mp hpair (p.indexOf j) (p.indexOf i) hjj hii hlt
    have hgi : p[p.indexOf i] = i := List.indexOf_get hii
    have hgj : p[p.indexOf j] = j := List.indexOf_get hjj
    rw [hgi, hgj] at this
    rcases this with hcase | ⟨_, hcase⟩
    · rw [heq] at hcase
      exact lt_irrefl _ hcase
    · exact absurd (lt_of_lt_of_le hij hcase) (lt_irrefl i)

/-! ### Numpy-style errors

One inductive collects every failure mode appearing in (or claimed of) the
embedded code.  insufficientPivots is the error named by the specification
for the select step; it is declared here so that its absence from every
code path can be stated.  typeError models a Python TypeError (wrong call
arity), shapeMismatch a numpy broadcasting failure. -/

inductive PyError : Type where
  | shapeMismatch : PyError
  | degenerateSimplex : PyError
  | insufficientPivots : PyError
  | typeError : PyError
deriving DecidableEq, Repr

/-! ### Metric oracle

euclid_scalar is embedded from simcoder/experiment_100.py lines 29 to 31:
math.sqrt(np.sum((p1 - p2) ** 2)).  The elementwise difference p1 - p2 of
two one-dimensional numpy arrays succeeds when the lengths agree, and also
when either operand has length one (numpy broadcasting); any other length
mismatch raises a ValueError, modelled as shapeMismatch. -/

/-- Sum of squares of a real list. -/
def sumSq (v : List ℝ) : ℝ :=
  (v.map (fun x => x ^ 2)).sum

/-- Elementwise difference of two 1-D numpy arrays, with numpy broadcasting:
defined when lengths agree or when either operand has length one. -/
def npSub (p1 p2 : List ℝ) : Except PyError (List ℝ) :=
  if p1.length = p2.length then
    Except.ok (List.zipWith (fun a b => a - b) p1 p2)
  else if p1.length = 1 then
    Except.ok (p2.map (fun b => p1.getD 0 0 - b))
  else if p2.length = 1 then
    Except.ok (p1.map (fun a => a - p2.getD 0 0))
  else
    Except.error PyError.shapeMismatch

/-- Euclidean distance of two equal-length real vectors; the value computed
by euclid_scalar when no broadcasting error occurs. -/
noncomputable def euclidDist (p1 p2 : List ℝ) : ℝ :=
  Real.sqrt (sumSq (List.zipWith (fun a b => a - b) p1 p2))

/-- Embedded euclid_scalar from simcoder/experiment_100.py lines 29 to 31. -/
noncomputable def euclid_scalar (p1 p2 : List ℝ) : Except PyError ℝ :=
  (npSub p1 p2).map (fun v => Real.sqrt (sumSq v))

theorem euclid_scalar_of_length_eq (p1 p2 : List ℝ) (h : p1.length = p2.length) :
    euclid_scalar p1 p2 = Except.ok (euclidDist p1 p2) := by
  simp [euclid_scalar, npSub, euclidDist, h, Except.map]

/-- Modelled from the spec: the L1 metric of section 4.1, sum of absolute
per-dimension differences.  The metric module (sisap2023/utils/distances.py)
is not among the provided sources. -/
def l1Dist (p1 p2 : List ℝ) : ℝ :=
  (List.zipWith (fun a b => |a - b|) p1 p2).sum

/-- Dot product of two real lists. -/
def dotList (p1 p2 : List ℝ) : ℝ :=
  (List.zipWith (fun a b => a * b) p1 p2).sum

/-- Modelled from the spec: L2 normalisation of a vector, used by the
cosine-derived metric of section 4.1. -/
noncomputable def l2Normalize (v : List ℝ) : List ℝ :=
  v.map (fun x => x / Real.sqrt (sumSq v))

/-- Modelled from the spec: the cosine-derived metric of section 4.1, one
minus the normalized dot product applied to L2-normalized vectors. -/
noncomputable def cosineDist (p1 p2 : List ℝ) : ℝ :=
  1 - dotList (l2Normalize p1) (l2Normalize p2)

/-- Kullback-Leibler style sum used by the Jensen-Shannon divergence model. -/
noncomputable def klTerm (p q : List ℝ) : ℝ :=
  (List.zipWith (fun x y => x * Real.log (x / y)) p q).sum

/-- Modelled from the spec: the Jensen-Shannon style divergence of section
4.1, the symmetric KL-based divergence between the two distributions and
their average. -/
noncomputable def jsdDist (p1 p2 : List ℝ) : ℝ :=
  klTerm p1 (List.zipWith (fun x y => (x + y) / 2) p1 p2) +
    klTerm p2 (List.zipWith (fun x y => (x + y) / 2) p1 p2)

/-! ### Simplex basis builder and apex projector

Modelled from the spec: the module simcoder/nsimplex.py (class NSimplex with
build_base and _get_apex) is imported by the experiment code but is not
among the provided sources.  The algorithm below follows specification
sections 4.2 and 4.3: sequential right-triangle placement.  Pivot 0 sits at
the origin, pivot 1 on axis 0 at distance d(0,1); each later pivot k gets
its first k-1 coordinates from the lower-triangular linear system expressing
its distances to the already placed pivots (law of cosines), and its final
coordinate is the square root of the residual of its squared distance to
pivot 0, clamped to zero when validate is false and reported as
DegenerateSimplexError when validate is true and the radicand is negative. -/

/-- Sequential lower-triangular solve: rows are the already placed pivots
(excluding the origin pivot), rhs the law-of-cosines right hand sides; each
step fixes one further coordinate of the point being placed. -/
noncomputable def solveCoords (rows : List (List ℝ)) (rhs : List ℝ) : List ℝ :=
  (rows.zip rhs).foldl
    (fun acc pr => acc ++ [(pr.2 - dotList acc pr.1) / pr.1.getD acc.length 0]) []

/-- Law-of-cosines right hand sides for placing a point with distance vector
dvec relative to the placed basis bb: for each placed pivot P (other than
the origin), the inner product of the new point with P must equal
(normSq P + d0 ^ 2 - dP ^ 2) / 2. -/
noncomputable def lawOfCosinesRhs (bb : List (List ℝ)) (dvec : List ℝ) : List ℝ :=
  (List.range (bb.length - 1)).map (fun t =>
    (sumSq (bb.getD (t + 1) []) + (dvec.getD 0 0) ^ 2 - (dvec.getD (t + 1) 0) ^ 2) / 2)

/-- In-plane coordinates of a point being placed against the basis bb from
its distance vector dvec. -/
noncomputable def apexCoords (bb : List (List ℝ)) (dvec : List ℝ) : List ℝ :=
  solveCoords (bb.drop 1) (lawOfCosinesRhs bb dvec)

/-- Radicand of the residual (perpendicular) coordinate: squared distance to
the origin pivot minus the squared norm of the in-plane coordinates. -/
noncomputable def apexRadicand (bb : List (List ℝ)) (dvec : List ℝ) : ℝ :=
  (dvec.getD 0 0) ^ 2 - sumSq (apexCoords bb dvec)

/-- Modelled from the spec, section 4.3: the apex projector NSimplex._get_apex
for a single distance vector; the final coordinate (altitude) clamps a
negative radicand to zero. -/
noncomputable def get_apex (bb : List (List ℝ)) (dvec : List ℝ) : List ℝ :=
  apexCoords bb dvec ++ [Real.sqrt (max 0 (apexRadicand bb dvec))]

/-- One placement step of build_base: the new pivot row, padded with zeros
to the ambient dimension dim; fails with DegenerateSimplexError exactly when
validate is true and the residual radicand is negative. -/
noncomputable def placeRow (placed : List (List ℝ)) (dk : List ℝ) (validate : Bool)
    (dim : ℕ) : Except PyError (List ℝ) :=
  if validate ∧ apexRadicand placed dk < 0 then
    Except.error PyError.degenerateSimplex
  else
    Except.ok (get_apex placed dk ++ List.replicate (dim - placed.length) 0)

/-- Modelled from the spec, section 4.2: NSimplex.build_base, building the
n-by-(n-1) simplex basis from the distance matrix d by sequential placement. -/
noncomputable def build_base (d : ℕ → ℕ → ℝ) (n : ℕ) (validate : Bool) :
    Except PyError (List (List ℝ)) :=
  (List.range n).foldlM
    (fun placed k =>
      if k = 0 then
        Except.ok (placed ++ [List.replicate (n - 1) 0])
      else if k = 1 then
        Except.ok (placed ++ [d 0 1 :: List.replicate (n - 2) 0])
      else
        (placeRow placed ((List.range k).map (fun i => d k i)) validate (n - 1)).map
          (fun row => placed ++ [row]))
    []

theorem placeRow_false (placed : List (List ℝ)) (dk : List ℝ) (dim : ℕ) :
    placeRow placed dk false dim =
      Except.ok (get_apex placed dk ++ List.replicate (dim - placed.length) 0) := by
  simp [placeRow]

theorem foldlM_isOk_of_step_ok {β : Type} (f : β → ℕ → Except PyError β)
    (hf : ∀ b k, (f b k).isOk = true) :
    ∀ (l : List ℕ) (b : β), (l.foldlM f b).isOk = true := by
  intro l
  induction l with
  | nil => intro b; rfl
  | cons k t ih =>
    intro b
    have h := hf b k
    cases hfk : f b k with
    | error e => rw [hfk] at h; simp [Except.isOk, Except.toBool] at h
    | ok b2 =>
      rw [List.foldlM_cons, hfk]
      simpa [Except.bind] using ih b2

theorem build_base_false_isOk (d : ℕ → ℕ → ℝ) (n : ℕ) :
    (build_base d n false).isOk = true := by
  apply foldlM_isOk_of_step_ok
  intro b k
  by_cases h0 : k = 0
  · simp [h0, Except.isOk, Except.toBool]
  · by_cases h1 : k = 1
    · simp [h0, h1, Except.isOk, Except.toBool]
    · simp [h0, h1, placeRow_false, Except.isOk, Except.toBool, Except.map]

/-! ### count_cats embeddings

Embedded from simcoder/count_cats.py.  Softmax data is a row-major matrix,
modelled as a list of rows.  The functions that sort use np.argsort; since
numpy leaves the order of equal elements to the implementation, each
embedding takes the argsort function as an explicit parameter srt, which in
the theorems below is either constrained by ArgsortSpec or instantiated
with argsortStable. -/

/-- Number of columns of a row-major matrix, as numpy shape(1) of a
rectangular array. -/
def numCols (m : List (List ℝ)) : ℕ :=
  (m.headD []).length

/-- Column sums of np.where(smData>thresh,1,0), count_cats.py lines 11 to
12: entry c sums the 0-1 indicators of column c over all rows. -/
noncomputable def categoryCounts (smData : List (List ℝ)) (thresh : ℝ) : List ℕ :=
  (List.range (numCols smData)).map
    (fun c => ((smData.map (fun row => row.map (fun x => if thresh < x then (1 : ℕ) else 0))).map
      (fun row => row.getD c 0)).sum)

/-- Embedded from count_cats.py lines 5 to 15: np.where(smData>thresh,1,0)
summed down each column gives per-category counts; the categories are
returned sorted by descending count together with those counts. -/
noncomputable def findHighlyCategorisedInDataset (srt : List ℕ → List ℕ)
    (smData : List (List ℝ)) (thresh : ℝ) : List ℕ × List ℕ :=
  let sums := categoryCounts smData thresh
  let most_catgorical_indices := (srt sums).reverse
  let most_catgorical := most_catgorical_indices.map (fun ix => sums.getD ix 0)
  (most_catgorical_indices, most_catgorical)

/-- Embedded from count_cats.py lines 17 to 21: the number of result rows
whose value in column cat is strictly greater than thresh. -/
noncomputable def countNumberInResultsInCat (cat : ℕ) (thresh : ℝ)
    (result_indices : List ℕ) (sm_data : List (List ℝ)) : ℕ :=
  ((result_indices.map (fun ix => sm_data.getD ix [])).filter
    (fun r => decide (thresh < r.getD cat 0))).length

/-- Embedded from count_cats.py lines 30 to 33: the number of rows of
sm_data whose value in column cat is strictly greater than thresh. -/
noncomputable def countNumberinCatGTThresh (cat : ℕ) (thresh : ℝ)
    (sm_data : List (List ℝ)) : ℕ :=
  (sm_data.filter (fun r => decide (thresh < r.getD cat 0))).length

/-- Embedded from count_cats.py lines 23 to 28 (getBestCats; the experiment
files import it as getBestCatsInSubset, whose module copy is not among the
provided sources; the unused allData parameter of the source is dropped):
the ids in nn_ids reordered by descending value of column category_required
of sm_data, via np.flip(np.argsort(values)). -/
def getBestCats (category_required : ℕ) (nn_ids : List ℕ)
    (sm_data : List (List ℝ)) (srt : List ℝ → List ℕ) : List ℕ :=
  let sm_values_of_interest := nn_ids.map (fun ix => sm_data.getD ix [])
  let indices := sm_values_of_interest.map (fun r => r.getD category_required 0)
  let best_nnids := (srt indices).reverse
  best_nnids.map (fun j => nn_ids.getD j 0)

/-! ### The experiment_100 poly-query pipeline

Embedded from simcoder/experiment_100.py.  The module-level globals shared
between worker processes are gathered into one structure.  The distance
helper getDists lives in similarity.py, which is not among the provided
sources; it is modelled from the spec (sections 4.1 and 4.5): the distances
from one object of the collection to every object, under the configured
Metric Oracle, carried as a field of the globals. -/

structure Globals where
  queries : ℕ → ℕ
  top_categories : ℕ → ℕ
  data : List (List ℝ)
  sm_data : List (List ℝ)
  threshold : ℝ
  nn_at_which_k : ℕ
  metric : List ℝ → List ℝ → ℝ

/-- Modelled from the spec: similarity.getDists(q, data), the vector of
distances from object q to every row of the collection under the Metric
Oracle. -/
def getDists (g : Globals) (q : ℕ) : List ℝ :=
  g.data.map (fun row => g.metric (g.data.getD q []) row)

/-- Numpy row assignment buf(j) = src into a row of length dstLen: succeeds
when the lengths agree, broadcasts when src has length one, and raises a
shape mismatch otherwise. -/
def npAssignRow (dstLen : ℕ) (src : List ℝ) : Except PyError (List ℝ) :=
  if src.length = dstLen then Except.ok src
  else if src.length = 1 then Except.ok (List.replicate dstLen (src.getD 0 0))
  else Except.error PyError.shapeMismatch

/-- Error-propagating elementwise map, the effect of a Python for loop that
performs one fallible assignment per index. -/
def mapExcept {β : Type} (f : ℕ → Except PyError β) : List ℕ → Except PyError (List β)
  | [] => Except.ok []
  | a :: t => (f a).bind (fun v => (mapExcept f t).map (fun vs => v :: vs))

/-- Embedded from experiment_100.py lines 222 to 224 (the same loop appears
in run_perfect_point, run_mean_point and run_average, and in
simplex_harness.py and experimentselected.py): the buffer
np.zeros((num_poly_queries, 1000 * 1000)) receives one distance row per
poly query, with numpy assignment semantics per row. -/
def fillPolyQueryDistances (rowsrc : ℕ → List ℝ) (num_poly_queries : ℕ) :
    Except PyError (List (List ℝ)) :=
  mapExcept (fun j => npAssignRow (1000 * 1000) (rowsrc j)) (List.range num_poly_queries)

/-- Embedded from experiment_100.py line 226:
squareform(pdist(rows, metric=euclid_scalar)).  pdist applies the metric to
each unordered pair of distinct rows; squareform mirrors the result into a
symmetric matrix with zero diagonal.  The rows all have equal length, so
euclid_scalar takes its non-broadcasting branch, with value euclidDist. -/
noncomputable def inter_pivot_distances (rows : List (List ℝ)) : ℕ → ℕ → ℝ :=
  fun i j =>
    if i = j then 0
    else if i < j then euclidDist (rows.getD i []) (rows.getD j [])
    else euclidDist (rows.getD j []) (rows.getD i [])

/-- The result quintuple returned by each experiment runner in
experiment_100.py: query id, category count among the top k of the single
query, category count among the top k of the poly query, and the two
softmax sums. -/
structure RunResult where
  query : ℕ
  nns_single : ℕ
  nns_poly : ℕ
  sum_single : ℝ
  sum_poly : ℝ

/-- Softmax sum np.sum(sm_data(ids)(:, category)). -/
def softmaxSum (sm_data : List (List ℝ)) (category : ℕ) (ids : List ℕ) : ℝ :=
  (ids.map (fun ix => (sm_data.getD ix []).getD category 0)).sum

/-- The shortlist of experiment_100.py lines 213 to 216: the nn_at_which_k
indices closest to the query, in the order produced by argsort. -/
def best_k_for_one_query (g : Globals) (srt : List ℝ → List ℕ) (i : ℕ) : List ℕ :=
  (srt (getDists g (g.queries i))).take g.nn_at_which_k

/-- The pivot set of experiment_100.py lines 217 to 218: the shortlist
reordered by descending category confidence, truncated to 6. -/
def poly_query_indexes (g : Globals) (srt : List ℝ → List ℕ) (i : ℕ) : List ℕ :=
  (getBestCats (g.top_categories i) (best_k_for_one_query g srt i) g.sm_data srt).take 6

/-- Embedded from experiment_100.py lines 201 to 247 (run_simplex): select
pivots, build the basis with validate false, project every candidate, rank
by the altitude coordinate and report category statistics.  The argsort
function is the srt parameter; no step checks how many pivots were
selected. -/
noncomputable def run_simplex (g : Globals) (srt : List ℝ → List ℕ) (i : ℕ) :
    Except PyError RunResult :=
  let query := g.queries i
  let category := g.top_categories i
  let best_k := best_k_for_one_query g srt i
  let poly_idx := poly_query_indexes g srt i
  let poly_query_data := poly_idx.map (fun ix => g.data.getD ix [])
  let num_poly_queries := poly_idx.length
  (fillPolyQueryDistances (fun j => getDists g (poly_idx.getD j 0)) num_poly_queries).bind
    (fun pqd =>
      (build_base (inter_pivot_distances poly_query_data) num_poly_queries false).bind
        (fun base =>
          let all_apexes := (List.range (1000 * 1000)).map
            (fun c => get_apex base (pqd.map (fun row => row.getD c 0)))
          let altitudes := all_apexes.map (fun ap => ap.getD (num_poly_queries - 1) 0)
          let best_k_for_simplex := (srt altitudes).take g.nn_at_which_k
          Except.ok
            { query := query
              nns_single := countNumberInResultsInCat category g.threshold best_k g.sm_data
              nns_poly := countNumberInResultsInCat category g.threshold best_k_for_simplex g.sm_data
              sum_single := softmaxSum g.sm_data category best_k
              sum_poly := softmaxSum g.sm_data category best_k_for_simplex }))

/-- Embedded from experiment_100.py lines 45 to 66 (fromSimplexPoint; also
the model for the copy imported by experimentselected.py from the absent
module sisap2023/metrics/nsimplex.py): build the basis with validate false,
project the perfect point from nn_dists, and return each candidate's
distance to it.  Both apexes come from the same basis, so they have equal
length and euclid_scalar takes its non-broadcasting value euclidDist. -/
noncomputable def fromSimplexPoint (poly_query_distances : List (List ℝ))
    (ipd : ℕ → ℕ → ℝ) (nPivots : ℕ) (nn_dists : List ℝ) : Except PyError (List ℝ) :=
  (build_base ipd nPivots false).map (fun base =>
    let perf_point := get_apex base nn_dists
    (List.range (1000 * 1000)).map (fun c =>
      euclidDist (get_apex base (poly_query_distances.map (fun row => row.getD c 0)))
        perf_point))

/-! ### The msed scorer

Modelled from the spec, section 4.4: the module simcoder/msed.py is not
among the provided sources.  Only the arity and totality of msed matter to
the claims below; the value follows the spec reading of minimum, over the
points taken as a notional center, of the sum of distances from that point
to the rest of the set. -/

/-- Modelled from the spec, section 4.4: the minimum-sum-of-distances score
of a point set. -/
noncomputable def msed (points : List (List ℝ)) : ℝ :=
  ((points.map (fun p => (points.map (fun q => euclidDist p q)).sum)).foldr min 0)

/-- Embedded from experiment_100.py lines 270 to 276 (run_msed): the result
buffer is sized by data.shape(0) and receives one msed score per row of the
collection; no fixed one-million constant is involved. -/
noncomputable def run_msed_results (g : Globals) (poly_query_data : List (List ℝ)) : List ℝ :=
  (List.range g.data.length).map (fun j => msed (poly_query_data ++ [g.data.getD j []]))

/-! ### The experimentselected pipeline

Embedded from sisap2023/experiments/experimentselected.py.  The module
globals are gathered into one structure.  In the source the global
categories holds the imagenet class-name strings, yet compute_results also
uses the value categories(i) as a column index of the softmax matrix; that
type confusion is modelled by carrying integer category ids (categories)
alongside the display strings (categoriesStr).  get_dists lives in the
absent module sisap2023/utils/distances.py and is modelled from the spec as
for getDists above.  count_number_in_results_cated_as is likewise absent
from the provided count_cats sources and is modelled from its name and call
sites: the number of results whose top softmax category (np.argmax) is the
given one. -/

structure SelGlobals where
  queries : ℕ → ℕ
  categories : ℕ → ℕ
  categoriesStr : ℕ → String
  best_k_for_queries : ℕ → List ℕ
  data : List (List ℝ)
  sm_data : List (List ℝ)
  threshold : ℝ
  nn_at_which_k : ℕ
  metric : List ℝ → List ℝ → ℝ

/-- The module-level constant num_poly_queries = 6 of
experimentselected.py line 37. -/
def num_poly_queries : ℕ := 6

/-- Modelled from the spec: get_dists(q, data) from the absent module
sisap2023/utils/distances.py, the distances from object q to every row of
the collection under the Metric Oracle. -/
def sel_getDists (g : SelGlobals) (q : ℕ) : List ℝ :=
  g.data.map (fun row => g.metric (g.data.getD q []) row)

/-- Index of the first maximum of a row, as np.argmax. -/
noncomputable def npArgmax (r : List ℝ) : ℕ :=
  r.indexOf (r.foldr max 0)

/-- Modelled from its name and call sites (the source of the imported
count_number_in_results_cated_as is not among the provided files): the
number of result rows whose top softmax category is cat. -/
noncomputable def count_number_in_results_cated_as (cat : ℕ) (result_indices : List ℕ)
    (sm_data : List (List ℝ)) : ℕ :=
  ((result_indices.map (fun ix => sm_data.getD ix [])).filter
    (fun r => decide (npArgmax r = cat))).length

/-- Embedded from experimentselected.py lines 51 to 59: the two-parameter
select_poly_query_images, returning the pivot data rows and pivot ids. -/
def select_poly_query_images (g : SelGlobals) (srt : List ℝ → List ℕ) (i : ℕ)
    (num_poly : ℕ) : List (List ℝ) × List ℕ :=
  let category := g.categories i
  let best_k_for_one_query := g.best_k_for_queries i
  let best_k_categorical := getBestCats category best_k_for_one_query g.sm_data srt
  let poly_query_indexes := best_k_categorical.take num_poly
  (poly_query_indexes.map (fun ix => g.data.getD ix []), poly_query_indexes)

/-- The call select_poly_query_images(i) as written at
experimentselected.py line 138 (and at the other run functions): the
function requires two positional arguments but receives one, so Python
raises a TypeError before the body runs. -/
def call_select_poly_query_images_one_arg (g : SelGlobals) (srt : List ℝ → List ℕ)
    (i : ℕ) : Except PyError (List (List ℝ) × List ℕ) :=
  Except.error PyError.typeError

/-- The eight-column result tuple of experimentselected.py. -/
structure SelResult where
  query : ℕ
  max_possible_in_cat : ℕ
  cat_index : ℕ
  cat_string : String
  nns_single : ℕ
  nns_poly : ℕ
  sum_single : ℝ
  sum_poly : ℝ

/-- Embedded from experimentselected.py lines 62 to 81 (compute_results):
statistics of the top nn_at_which_k candidates under the given distances,
attributed to the query and category of index i. -/
noncomputable def compute_results (g : SelGlobals) (srt : List ℝ → List ℕ) (i : ℕ)
    (distances : List ℝ) : SelResult :=
  let query := g.queries i
  let category := g.categories i
  let best_k_for_poly_indices := (srt distances).take g.nn_at_which_k
  { query := query
    max_possible_in_cat := countNumberinCatGTThresh category g.threshold g.sm_data
    cat_index := category
    cat_string := g.categoriesStr category
    nns_single := count_number_in_results_cated_as category (g.best_k_for_queries i) g.sm_data
    nns_poly := count_number_in_results_cated_as category best_k_for_poly_indices g.sm_data
    sum_single := softmaxSum g.sm_data category (g.best_k_for_queries i)
    sum_poly := softmaxSum g.sm_data category best_k_for_poly_indices }

/-- Ascending value sort, as np.sort. -/
noncomputable def npSort (v : List ℝ) : List ℝ :=
  List.insertionSort (fun a b => a ≤ b) v

/-- Embedded from experimentselected.py lines 139 to 160: the body of
run_perfect_point after the select call, shared by the faithful and the
repaired variants below.  The loop for i in range(num_poly_queries) is
modelled as a fold whose state carries the loop variable, because in Python
that loop rebinds the function parameter i, and the rebound value is what
compute_results receives on line 160. -/
noncomputable def run_perfect_point_after_select (g : SelGlobals) (srt : List ℝ → List ℕ)
    (i : ℕ) (sel : List (List ℝ) × List ℕ) : Except PyError SelResult :=
  let poly_query_data := sel.1
  let poly_query_indexes := sel.2
  (fillPolyQueryDistances (fun j => sel_getDists g (poly_query_indexes.getD j 0))
      num_poly_queries).bind (fun pqd =>
    let nnToUse := 10
    let st := (List.range num_poly_queries).foldl
      (fun (acc : ℕ × List ℝ) j => (j, acc.2 ++ [(npSort (pqd.getD j [])).getD nnToUse 0]))
      (i, [])
    let ten_nn_dists := st.2
    let ipd := inter_pivot_distances poly_query_data
    (fromSimplexPoint pqd ipd num_poly_queries ten_nn_dists).bind (fun distances =>
      Except.ok (compute_results g srt st.1 distances)))

/-- Embedded from experimentselected.py lines 136 to 160 (run_perfect_point)
as written: the select call on line 138 passes one argument to a
two-parameter function, so the whole run fails with a TypeError. -/
noncomputable def run_perfect_point (g : SelGlobals) (srt : List ℝ → List ℕ) (i : ℕ) :
    Except PyError SelResult :=
  (call_select_poly_query_images_one_arg g srt i).bind
    (fun sel => run_perfect_point_after_select g srt i sel)

/-- run_perfect_point with the select call repaired to pass the module
constant num_poly_queries, the evident intent of the source. -/
noncomputable def run_perfect_point_fixed (g : SelGlobals) (srt : List ℝ → List ℕ)
    (i : ℕ) : Except PyError SelResult :=
  run_perfect_point_after_select g srt i
    (select_poly_query_images g srt i num_poly_queries)

/-! ### The four production build_base call sites

Each ranking path constructs its basis with validate set to False.  These
wrappers record the literal calls. -/

/-- The call nsimp.build_base(inter_pivot_distances, False) at
simcoder/experiment_100.py lines 231 to 232 inside run_simplex. -/
noncomputable def run_simplex_build_call (ipd : ℕ → ℕ → ℝ) (n : ℕ) :
    Except PyError (List (List ℝ)) :=
  build_base ipd n false

/-- The call nsimp.build_base(inter_pivot_distances, False) at
simcoder/experiment_100.py lines 52 to 53 inside fromSimplexPoint. -/
noncomputable def fromSimplexPoint_build_call (ipd : ℕ → ℕ → ℝ) (n : ℕ) :
    Except PyError (List (List ℝ)) :=
  build_base ipd n false

/-- The call nsimp.build_base(inter_pivot_distances, False) at
sisap2023/experiments/experimentselected.py lines 189 to 190 inside
run_simplex. -/
noncomputable def selected_run_simplex_build_call (ipd : ℕ → ℕ → ℝ) (n : ℕ) :
    Except PyError (List (List ℝ)) :=
  build_base ipd n false

/-- The call nsimp.build_base(inter_pivot_distances, False) at
simcoder/simplex_harness.py lines 62 to 63 inside run_experiment. -/
noncomputable def harness_run_experiment_build_call (ipd : ℕ → ℕ → ℝ) (n : ℕ) :
    Except PyError (List (List ℝ)) :=
  build_base ipd n false

/-- The rank step of experiment_100.py lines 239 to 240: take the first
nn_at_which_k entries of the argsort of the altitudes. -/
def rank_step (altitudes : List ℝ) (srt : List ℝ → List ℕ) (k : ℕ) : List ℕ :=
  (srt altitudes).take k

/-! ### Shared auxiliary lemmas -/

theorem except_isOk_iff_exists {ε β : Type} (e : Except ε β) :
    e.isOk = true ↔ ∃ v, e = Except.ok v := by
  cases e <;> simp [Except.isOk, Except.toBool]

theorem mapExcept_ok_iff {β : Type} (f : ℕ → Except PyError β) :
    ∀ l : List ℕ, (mapExcept f l).isOk = true ↔ ∀ x ∈ l, (f x).isOk = true := by
  intro l
  induction l with
  | nil => simp [mapExcept, Except.isOk, Except.toBool]
  | cons a t ih =>
    cases hfa : f a with
    | error e =>
      simp only [mapExcept, hfa, Except.bind, Except.isOk, Except.toBool]
      constructor
      · intro h; exact absurd h (by simp)
      · intro h
        have := h a (by simp)
        simp [hfa, Except.isOk, Except.toBool] at this
    | ok v =>
      simp only [mapExcept, hfa, Except.bind]
      cases hft : mapExcept f t with
      | error e =>
        rw [hft] at ih
        simp only [Except.map, Except.isOk, Except.toBool]
        constructor
        · intro h; exact absurd h (by simp)
        · intro h
          have h3 := ih.mpr (fun x hx => h x (by simp [hx]))
          simp [Except.isOk, Except.toBool] at h3
      | ok vs =>
        rw [hft] at ih
        simp only [Except.map, Except.isOk, Except.toBool]
        constructor
        · intro _ x hx
          rcases List.mem_cons.mp hx with h | h
          · subst h; simp [hfa, Except.isOk, Except.toBool]
          · exact ih.mp rfl x h
        · intro _; trivial

theorem mapExcept_error_imp {β : Type} (f : ℕ → Except PyError β) :
    ∀ (l : List ℕ) (e : PyError),
      mapExcept f l = Except.error e → ∃ x ∈ l, f x = Except.error e := by
  intro l
  induction l with
  | nil => intro e h; simp [mapExcept] at h
  | cons a t ih =>
    intro e h
    cases hfa : f a with
    | error e2 =>
      simp only [mapExcept, hfa, Except.bind] at h
      injection h with h2
      exact ⟨a, by simp, by rw [hfa, h2]⟩
    | ok v =>
      simp only [mapExcept, hfa, Except.bind] at h
      cases hft : mapExcept f t with
      | error e2 =>
        rw [hft] at h
        simp only [Except.map] at h
        injection h with h2
        obtain ⟨x, hx, hfx⟩ := ih e2 hft
        exact ⟨x, by simp [hx], by rw [hfx, h2]⟩
      | ok vs =>
        rw [hft] at h
        simp [Except.map] at h

theorem npAssignRow_error (n : ℕ) (v : List ℝ) (e : PyError)
    (h : npAssignRow n v = Except.error e) : e = PyError.shapeMismatch := by
  unfold npAssignRow at h
  split at h
  · exact absurd h (by simp)
  · split at h
    · exact absurd h (by simp)
    · injection h with h2
      exact h2.symm

theorem fillPolyQueryDistances_error (rowsrc : ℕ → List ℝ) (k : ℕ) (e : PyError)
    (h : fillPolyQueryDistances rowsrc k = Except.error e) : e = PyError.shapeMismatch := by
  unfold fillPolyQueryDistances at h
  obtain ⟨x, _, hx⟩ := mapExcept_error_imp _ _ e h
  exact npAssignRow_error _ _ _ hx

theorem getD_map_range {α : Type} (l : List α) (d : α) :
    (List.range l.length).map (fun i => l.getD i d) = l := by
  apply List.ext_getElem
  · simp
  · intro n h1 h2
    simp [List.getD_eq_getElem, h2]

/-! ### Claim C1: embedding fidelity of build_base -/

/-- The hypotheses of claim C1 on a K-by-K distance matrix: symmetric, zero
diagonal, non-negative, and satisfying the triangle inequality for all
triples. -/
def MetricMatrixOK (d : ℕ → ℕ → ℝ) (n : ℕ) : Prop :=
  (∀ i j, i < n → j < n → d i j = d j i) ∧
  (∀ i, i < n → d i i = 0) ∧
  (∀ i j, i < n → j < n → 0 ≤ d i j) ∧
  (∀ i j k, i < n → j < n → k < n → d i j ≤ d i k + d k j)

/-- The conclusion of claim C1: the pairwise Euclidean distances of the rows
built by build_base match the input matrix within relative tolerance tol. -/
def EmbeddingFidelityWithin (d : ℕ → ℕ → ℝ) (n : ℕ) (tol : ℝ) : Prop :=
  ∀ rows, build_base d n false = Except.ok rows →
    ∀ i j, i < n → j < n →
      |euclidDist (rows.getD i []) (rows.getD j []) - d i j| ≤ tol * |d i j|

/-- Claim C1 as stated: every matrix satisfying the triangle inequality is
reproduced by the builder within 1e-6 relative tolerance. -/
def ClaimC1 : Prop :=
  ∀ (d : ℕ → ℕ → ℝ) (n : ℕ), MetricMatrixOK d n → EmbeddingFidelityWithin d n (1 / 1000000)

/-- A 4-point metric satisfying all triangle inequalities but admitting no
Euclidean realisation: placing the fourth point forces a negative radicand,
which validate=false clamps to zero, distorting the rebuilt distances. -/
noncomputable def d4counter : ℕ → ℕ → ℝ := fun i j =>
  (([[0, 3, 4, 1], [3, 0, 5, 4], [4, 5, 0, 5], [1, 4, 5, 0]] : List (List ℝ)).getD i []).getD j 0

/-- The 3-4-5 right-triangle matrix of the spec's concrete scenario. -/
noncomputable def d345 : ℕ → ℕ → ℝ := fun i j =>
  (([[0, 3, 4], [3, 0, 5], [4, 5, 0]] : List (List ℝ)).getD i []).getD j 0

theorem build_base_d4counter :
    build_base d4counter 4 false =
      Except.ok [[0, 0, 0], [3, 0, 0], [0, 4, 0], [-1, -1, 0]] := by
  have h16 : Real.sqrt 16 = 4 := by
    rw [show (16 : ℝ) = 4 ^ 2 by norm_num, Real.sqrt_sq (by norm_num : (0:ℝ) ≤ 4)]
  simp only [build_base, List.range_succ, List.range_zero, List.nil_append,
    List.foldlM_cons, List.foldlM_nil, List.foldlM_append, bind, Except.bind, pure,
    Except.pure, Except.map]
  norm_num [placeRow, get_apex, apexCoords, apexRadicand, lawOfCosinesRhs, solveCoords,
    sumSq, dotList, List.replicate, List.zip, List.zipWith, List.foldl, d4counter, h16,
    Real.sqrt_zero]

/-- C1, counterexample: the claim fails as stated.  The matrix d4counter is
symmetric, zero-diagonal, non-negative and satisfies every triangle
inequality, yet the builder places pivot 3 at distance sqrt 2 from pivot 0
while the matrix prescribes distance 1, far outside the 1e-6 relative
tolerance: the triangle inequality does not guarantee a Euclidean
realisation for four or more points, and clamping distorts the result. -/
theorem c1_counterexample : ¬ ClaimC1 := by
  intro h
  have hm : MetricMatrixOK d4counter 4 := by
    refine ⟨?_, ?_, ?_, ?_⟩
    · intro i j hi hj
      interval_cases i <;> interval_cases j <;> norm_num [d4counter]
    · intro i hi
      interval_cases i <;> norm_num [d4counter]
    · intro i j hi hj
      interval_cases i <;> interval_cases j <;> norm_num [d4counter]
    · intro i j k hi hj hk
      interval_cases i <;> interval_cases j <;> interval_cases k <;> norm_num [d4counter]
  have h30 := h d4counter 4 hm _ build_base_d4counter 3 0 (by norm_num) (by norm_num)
  have hd30 : d4counter 3 0 = 1 := by norm_num [d4counter]
  have hE : euclidDist ([-1, -1, 0] : List ℝ) ([0, 0, 0] : List ℝ) = Real.sqrt 2 := by
    simp only [euclidDist, sumSq, List.zipWith, List.map, List.sum_cons, List.sum_nil]
    norm_num
  simp only [List.getD] at h30
  rw [hd30] at h30
  have h30b : |euclidDist ([-1, -1, 0] : List ℝ) ([0, 0, 0] : List ℝ) - 1| ≤ 1 / 1000000 * |1| := by
    simpa using h30
  rw [hE] at h30b
  have hle : Real.sqrt 2 ≤ 1 + 1 / 1000000 := by
    have h2 := (abs_le.mp h30b).2
    rw [abs_one] at h2
    linarith
  have hsq : (Real.sqrt 2) ^ 2 ≤ (1 + 1 / 1000000) ^ 2 := by
    apply pow_le_pow_left₀ (Real.sqrt_nonneg 2) hle
  rw [Real.sq_sqrt (by norm_num : (0:ℝ) ≤ 2)] at hsq
  norm_num at hsq

theorem simplex3_key (d01 d20 d21 : ℝ) (h01 : 0 ≤ d01)
    (t1 : d20 ≤ d21 + d01) (t2 : d21 ≤ d20 + d01) (t3 : d01 ≤ d20 + d21) :
    ((d01 ^ 2 + d20 ^ 2 - d21 ^ 2) / 2 / d01) ^ 2 +
      Real.sqrt (max 0 (d20 ^ 2 - ((d01 ^ 2 + d20 ^ 2 - d21 ^ 2) / 2 / d01) ^ 2)) ^ 2 =
      d20 ^ 2 ∧
    (((d01 ^ 2 + d20 ^ 2 - d21 ^ 2) / 2 / d01) - d01) ^ 2 +
      Real.sqrt (max 0 (d20 ^ 2 - ((d01 ^ 2 + d20 ^ 2 - d21 ^ 2) / 2 / d01) ^ 2)) ^ 2 =
      d21 ^ 2 := by
  set x := (d01 ^ 2 + d20 ^ 2 - d21 ^ 2) / 2 / d01 with hx
  rcases eq_or_lt_of_le h01 with h0 | hpos
  · have hd01 : d01 = 0 := h0.symm
    have hxz : x = 0 := by rw [hx, hd01]; simp
    have heq : d20 = d21 := le_antisymm (by linarith) (by linarith)
    rw [hxz]
    have hmax : max 0 (d20 ^ 2 - (0:ℝ) ^ 2) = d20 ^ 2 := by
      rw [show ((0:ℝ) ^ 2) = 0 by norm_num, sub_zero]
      exact max_eq_right (sq_nonneg d20)
    rw [hmax]
    constructor
    · rw [Real.sq_sqrt (sq_nonneg d20)]; ring
    · rw [Real.sq_sqrt (sq_nonneg d20), hd01, heq]; ring
  · have hrad : 0 ≤ d20 ^ 2 - x ^ 2 := by
      rw [hx, div_div, div_pow, sub_nonneg, div_le_iff₀ (by positivity)]
      nlinarith [mul_nonneg
        (mul_nonneg (by linarith : (0:ℝ) ≤ d21 + d20 - d01)
          (by linarith : (0:ℝ) ≤ d21 + d01 - d20))
        (mul_nonneg (by linarith : (0:ℝ) ≤ d01 + d20 - d21)
          (by linarith : (0:ℝ) ≤ d01 + d20 + d21))]
    have hsq : Real.sqrt (max 0 (d20 ^ 2 - x ^ 2)) ^ 2 = d20 ^ 2 - x ^ 2 := by
      rw [max_eq_right hrad, Real.sq_sqrt hrad]
    have hxid : x * (2 * d01) = d01 ^ 2 + d20 ^ 2 - d21 ^ 2 := by
      rw [hx]
      field_simp
    constructor
    · rw [hsq]; ring
    · rw [hsq]; nlinarith [hxid]

theorem build_base_three (d : ℕ → ℕ → ℝ) :
    build_base d 3 false = Except.ok
      [[0, 0], [d 0 1, 0],
       [(d 0 1 ^ 2 + d 2 0 ^ 2 - d 2 1 ^ 2) / 2 / d 0 1,
        Real.sqrt (max 0 (d 2 0 ^ 2 - ((d 0 1 ^ 2 + d 2 0 ^ 2 - d 2 1 ^ 2) / 2 / d 0 1) ^ 2))]] := by
  simp only [build_base, List.range_succ, List.range_zero, List.nil_append,
    List.foldlM_cons, List.foldlM_nil, List.foldlM_append, bind, Except.bind, pure,
    Except.pure, Except.map]
  norm_num [placeRow, get_apex, apexCoords, apexRadicand, lawOfCosinesRhs, solveCoords,
    sumSq, dotList, List.replicate, List.zip, List.zipWith, List.foldl]

/-- C1, amended: for three pivots (where the triangle inequality does
guarantee a Euclidean realisation) build_base returns a 3-by-2 matrix of
rows whose pairwise Euclidean distances reproduce the input matrix exactly,
hence in particular within the 1e-6 relative tolerance; for four or more
pivots the claim fails, because the triangle inequality no longer implies
realisability and relaxed validation clamps the impossible placement. -/
theorem c1_theorem (d : ℕ → ℕ → ℝ) (hm : MetricMatrixOK d 3) :
    ∃ rows, build_base d 3 false = Except.ok rows ∧ rows.length = 3 ∧
      (∀ r ∈ rows, r.length = 2) ∧
      (∀ i j, i < 3 → j < 3 → euclidDist (rows.getD i []) (rows.getD j []) = d i j) := by
  obtain ⟨hsymm, hdiag, hnonneg, htri⟩ := hm
  have h01 := hnonneg 0 1 (by norm_num) (by norm_num)
  have h20 := hnonneg 2 0 (by norm_num) (by norm_num)
  have h21 := hnonneg 2 1 (by norm_num) (by norm_num)
  have t1 : d 2 0 ≤ d 2 1 + d 0 1 := by
    have h := htri 2 0 1 (by norm_num) (by norm_num) (by norm_num)
    rwa [hsymm 1 0 (by norm_num) (by norm_num)] at h
  have t2 : d 2 1 ≤ d 2 0 + d 0 1 := htri 2 1 0 (by norm_num) (by norm_num) (by norm_num)
  have t3 : d 0 1 ≤ d 2 0 + d 2 1 := by
    have h := htri 0 1 2 (by norm_num) (by norm_num) (by norm_num)
    rwa [hsymm 0 2 (by norm_num) (by norm_num)] at h
  obtain ⟨k1, k2⟩ := simplex3_key (d 0 1) (d 2 0) (d 2 1) h01 t1 t2 t3
  set x := (d 0 1 ^ 2 + d 2 0 ^ 2 - d 2 1 ^ 2) / 2 / d 0 1 with hxdef
  set b := Real.sqrt (max 0 (d 2 0 ^ 2 - x ^ 2)) with hbdef
  have hs01 : Real.sqrt (d 0 1 ^ 2) = d 0 1 := Real.sqrt_sq h01
  have hs20 : Real.sqrt (d 2 0 ^ 2) = d 2 0 := Real.sqrt_sq h20
  have hs21 : Real.sqrt (d 2 1 ^ 2) = d 2 1 := Real.sqrt_sq h21
  refine ⟨[[0, 0], [d 0 1, 0], [x, b]], by rw [build_base_three d], by norm_num, by
    intro r hr
    simp only [List.mem_cons, List.not_mem_nil, or_false] at hr
    rcases hr with h | h | h <;> subst h <;> norm_num, ?_⟩
  intro i j hi hj
  interval_cases i <;> interval_cases j
  · show euclidDist [0, 0] [0, 0] = d 0 0
    rw [hdiag 0 (by norm_num)]
    simp [euclidDist, sumSq]
  · show euclidDist [0, 0] [d 0 1, 0] = d 0 1
    simp only [euclidDist, sumSq, List.zipWith, List.map, List.sum_cons, List.sum_nil]
    rw [show (0 - d 0 1) ^ 2 + ((0 - 0) ^ 2 + 0) = d 0 1 ^ 2 by ring, hs01]
  · show euclidDist [0, 0] [x, b] = d 0 2
    rw [hsymm 0 2 (by norm_num) (by norm_num)]
    simp only [euclidDist, sumSq, List.zipWith, List.map, List.sum_cons, List.sum_nil]
    rw [show (0 - x) ^ 2 + ((0 - b) ^ 2 + 0) = x ^ 2 + b ^ 2 by ring, k1, hs20]
  · show euclidDist [d 0 1, 0] [0, 0] = d 1 0
    rw [hsymm 1 0 (by norm_num) (by norm_num)]
    simp only [euclidDist, sumSq, List.zipWith, List.map, List.sum_cons, List.sum_nil]
    rw [show (d 0 1 - 0) ^ 2 + ((0 - 0) ^ 2 + 0) = d 0 1 ^ 2 by ring, hs01]
  · show euclidDist [d 0 1, 0] [d 0 1, 0] = d 1 1
    rw [hdiag 1 (by norm_num)]
    simp [euclidDist, sumSq]
  · show euclidDist [d 0 1, 0] [x, b] = d 1 2
    rw [hsymm 1 2 (by norm_num) (by norm_num)]
    simp only [euclidDist, sumSq, List.zipWith, List.map, List.sum_cons, List.sum_nil]
    rw [show (d 0 1 - x) ^ 2 + ((0 - b) ^ 2 + 0) = (x - d 0 1) ^ 2 + b ^ 2 by ring, k2, hs21]
  · show euclidDist [x, b] [0, 0] = d 2 0
    simp only [euclidDist, sumSq, List.zipWith, List.map, List.sum_cons, List.sum_nil]
    rw [show (x - 0) ^ 2 + ((b - 0) ^ 2 + 0) = x ^ 2 + b ^ 2 by ring, k1, hs20]
  · show euclidDist [x, b] [d 0 1, 0] = d 2 1
    simp only [euclidDist, sumSq, List.zipWith, List.map, List.sum_cons, List.sum_nil]
    rw [show (x - d 0 1) ^ 2 + ((b - 0) ^ 2 + 0) = (x - d 0 1) ^ 2 + b ^ 2 by ring, k2, hs21]
  · show euclidDist [x, b] [x, b] = d 2 2
    rw [hdiag 2 (by norm_num)]
    simp [euclidDist, sumSq]

/-- C1, witness: the amended theorem applied to the concrete 3-4-5
right-triangle matrix of the spec's concrete scenario. -/
theorem c1_witness :
    ∃ rows, build_base d345 3 false = Except.ok rows ∧ rows.length = 3 ∧
      (∀ r ∈ rows, r.length = 2) ∧
      (∀ i j, i < 3 → j < 3 → euclidDist (rows.getD i []) (rows.getD j []) = d345 i j) :=
  c1_theorem d345 (by
    refine ⟨?_, ?_, ?_, ?_⟩
    · intro i j hi hj
      interval_cases i <;> interval_cases j <;> norm_num [d345]
    · intro i hi
      interval_cases i <;> norm_num [d345]
    · intro i j hi hj
      interval_cases i <;> interval_cases j <;> norm_num [d345]
    · intro i j k hi hj hk
      interval_cases i <;> interval_cases j <;> interval_cases k <;> norm_num [d345])

/-! ### Claim C2: stability of the rank step -/

/-- Claim C2 as stated: every ordering produced by np.argsort (anything
satisfying its documented contract) breaks ties by original index. -/
def ClaimC2 : Prop :=
  ∀ (a : List ℝ) (p : List ℕ), ArgsortSpec a p → StableTieRule a p

/-- C2, counterexample: the contract of np.argsort (default unstable
quicksort kind) does not force stable tie-breaking: on the score array
(0, 0) the permutation (1, 0) satisfies the contract yet reverses the two
tied candidates. -/
theorem c2_counterexample : ¬ ClaimC2 := by
  intro h
  have hspec : ArgsortSpec ([0, 0] : List ℝ) [1, 0] := by
    constructor
    · decide
    · simp [List.Sorted, List.pairwise_cons]
  have habs := h [0, 0] [1, 0] hspec 0 1 (by norm_num) (by norm_num) rfl
  exact absurd habs (by decide)

/-- C2, amended: the rank step orders candidates ascending by score (for
any argsort obeying the numpy contract, the scores read along the ranked
prefix are non-decreasing), but the default np.argsort kind is an unstable
quicksort, so ties carry no ordering guarantee; the stable tie rule holds
when a stable sort is used instead, as argsortStable shows. -/
theorem c2_theorem (altitudes : List ℝ) (k : ℕ) (srt : List ℝ → List ℕ)
    (hsrt : ∀ v : List ℝ, ArgsortSpec v (srt v)) :
    ((rank_step altitudes srt k).map (fun j => altitudes.getD j default)).Sorted (· ≤ ·) ∧
    ArgsortSpec altitudes (argsortStable altitudes) ∧
    StableTieRule altitudes (argsortStable altitudes) := by
  refine ⟨?_, argsortStable_spec altitudes, argsortStable_stable altitudes⟩
  have hs := (hsrt altitudes).2
  rw [rank_step, List.map_take]
  exact List.Pairwise.sublist (List.take_sublist k _) hs

/-- C2, witness: the amended theorem at the concrete tied score array
(0, 0) with the stable argsort. -/
theorem c2_witness :
    ((rank_step [0, 0] argsortStable 1).map
      (fun j => ([0, 0] : List ℝ).getD j default)).Sorted (· ≤ ·) ∧
    ArgsortSpec ([0, 0] : List ℝ) (argsortStable ([0, 0] : List ℝ)) ∧
    StableTieRule ([0, 0] : List ℝ) (argsortStable ([0, 0] : List ℝ)) :=
  c2_theorem ([0, 0] : List ℝ) 1 argsortStable (fun v => argsortStable_spec v)

/-! ### Claim C5: dimension mismatch in euclid_scalar -/

/-- Claim C5 as stated: every length mismatch makes euclid_scalar fail. -/
def ClaimC5 : Prop :=
  ∀ p1 p2 : List ℝ, p1.length ≠ p2.length → (euclid_scalar p1 p2).isOk = false

/-- C5, counterexample: euclid_scalar on vectors of lengths 2 and 1 does not
fail: numpy broadcasting silently stretches the length-one operand, so the
call returns a number. -/
theorem c5_counterexample :
    ([0, 0] : List ℝ).length ≠ ([3] : List ℝ).length ∧
    (euclid_scalar [0, 0] [3]).isOk = true := by
  constructor
  · norm_num
  · rfl

/-- C5, amended: euclid_scalar fails on a length mismatch (with the numpy
broadcast error, the InvalidDimensionError of the spec) except when either
operand has length one, in which case numpy broadcasting makes it silently
return a value; the error is propagated, never recovered. -/
theorem c5_theorem (p1 p2 : List ℝ) (hne : p1.length ≠ p2.length) :
    (p1.length ≠ 1 → p2.length ≠ 1 →
      euclid_scalar p1 p2 = Except.error PyError.shapeMismatch) ∧
    ((p1.length = 1 ∨ p2.length = 1) → (euclid_scalar p1 p2).isOk = true) := by
  constructor
  · intro h1 h2
    simp [euclid_scalar, npSub, hne, h1, h2, Except.map]
  · intro h
    rcases h with h | h
    · have hne2 : ¬ ((1 : ℕ) = p2.length) := by rw [h] at hne; exact hne
      simp [euclid_scalar, npSub, h, hne2, Except.map, Except.isOk, Except.toBool]
    · by_cases h1 : p1.length = 1
      · exact absurd (h1.trans h.symm) hne
      · simp [euclid_scalar, npSub, hne, h1, h, Except.map, Except.isOk, Except.toBool]

/-- C5, witness: the amended theorem at lengths 3 and 2 (neither equal to
one), where the call does fail with the shape mismatch error. -/
theorem c5_witness :
    euclid_scalar [0, 0, 0] [1, 1] = Except.error PyError.shapeMismatch :=
  (c5_theorem [0, 0, 0] [1, 1] (by norm_num)).1 (by norm_num) (by norm_num)

/-! ### Claim C7: symmetry of the metrics -/

/-- C7: for equal-length vectors every supported metric is symmetric; in
particular euclid_scalar(a,b) = euclid_scalar(b,a), exactly (hence within
any floating tolerance), and likewise for the L1, cosine and
Jensen-Shannon models of the spec's metric list. -/
theorem euclidDist_comm (a b : List ℝ) : euclidDist a b = euclidDist b a := by
  unfold euclidDist sumSq
  rw [List.map_zipWith, List.map_zipWith]
  rw [List.zipWith_comm_of_comm (fun x y => (x - y) ^ 2) (fun x y => by ring) a b]

theorem c7_theorem (a b : List ℝ) (_hlen : a.length = b.length) :
    euclid_scalar a b = euclid_scalar b a ∧
    l1Dist a b = l1Dist b a ∧
    cosineDist a b = cosineDist b a ∧
    jsdDist a b = jsdDist b a := by
  refine ⟨?_, ?_, ?_, ?_⟩
  · rw [euclid_scalar_of_length_eq a b _hlen, euclid_scalar_of_length_eq b a _hlen.symm,
      euclidDist_comm a b]
  · unfold l1Dist
    rw [List.zipWith_comm_of_comm (fun x y => |x - y|) (fun x y => abs_sub_comm x y) a b]
  · unfold cosineDist dotList
    rw [List.zipWith_comm_of_comm (fun x y => x * y) (fun x y => mul_comm x y)
      (l2Normalize a) (l2Normalize b)]
  · unfold jsdDist
    rw [List.zipWith_comm_of_comm (fun x y => (x + y) / 2) (fun x y => by ring) b a]
    exact add_comm _ _

/-- C7, witness: the symmetry theorem at the concrete equal-length pair
(1, 2) and (3, 4). -/
theorem c7_witness :
    euclid_scalar ([1, 2] : List ℝ) [3, 4] = euclid_scalar [3, 4] [1, 2] ∧
    l1Dist ([1, 2] : List ℝ) [3, 4] = l1Dist [3, 4] [1, 2] ∧
    cosineDist ([1, 2] : List ℝ) [3, 4] = cosineDist [3, 4] [1, 2] ∧
    jsdDist ([1, 2] : List ℝ) [3, 4] = jsdDist [3, 4] [1, 2] :=
  c7_theorem [1, 2] [3, 4] rfl

/-! ### Claim C9: the hard-coded one-million distance buffer -/

/-- Claim C9 as stated: with a positive pivot count, every dataset row count
other than one million makes the buffer-fill loop fail with a shape
mismatch. -/
def ClaimC9 : Prop :=
  ∀ (n k : ℕ) (rowsrc : ℕ → List ℝ), (∀ j, (rowsrc j).length = n) → 0 < k →
    n ≠ 1000 * 1000 →
    fillPolyQueryDistances rowsrc k = Except.error PyError.shapeMismatch

/-- C9, counterexample: a dataset with exactly one row does not fail: numpy
broadcasts the length-one distance row across the million-column buffer
row, so the fill succeeds silently. -/
theorem c9_counterexample : ¬ ClaimC9 := by
  intro h
  have hfail := h 1 1 (fun _ => ([0] : List ℝ)) (fun _ => rfl) (by norm_num) (by norm_num)
  have hok : (fillPolyQueryDistances (fun _ => ([0] : List ℝ)) 1).isOk = true := by
    unfold fillPolyQueryDistances
    rw [mapExcept_ok_iff]
    intro x _
    unfold npAssignRow
    norm_num
    rfl
  rw [hfail] at hok
  simp [Except.isOk, Except.toBool] at hok

theorem fill_error_of_len (n m : ℕ) (rowsrc : ℕ → List ℝ)
    (hlen : ∀ j, (rowsrc j).length = n) (hn1 : n ≠ 1000 * 1000) (hn2 : n ≠ 1) :
    fillPolyQueryDistances rowsrc (m + 1) = Except.error PyError.shapeMismatch := by
  unfold fillPolyQueryDistances
  rw [List.range_succ_eq_map]
  have h0 : npAssignRow (1000 * 1000) (rowsrc 0) = Except.error PyError.shapeMismatch := by
    unfold npAssignRow
    rw [hlen 0]
    simp [hn1, hn2]
  simp only [mapExcept, h0, Except.bind]

theorem fill_ok_of_len (n k : ℕ) (rowsrc : ℕ → List ℝ)
    (hlen : ∀ j, (rowsrc j).length = n) (hcase : n = 1000 * 1000 ∨ n = 1) :
    (fillPolyQueryDistances rowsrc k).isOk = true := by
  unfold fillPolyQueryDistances
  rw [mapExcept_ok_iff]
  intro x _
  unfold npAssignRow
  rw [hlen x]
  rcases hcase with h | h
  · rw [if_pos h]
    rfl
  · rw [if_neg (by rw [h]; norm_num), if_pos h]
    rfl

/-- C9, amended: the four simplex runners fill a buffer with a hard-coded
1000*1000 columns, so with at least one pivot the fill fails with a shape
mismatch for every dataset row count other than one million and other than
one (a single-row dataset broadcasts silently instead of failing), succeeds
at exactly one million rows, while run_msed sizes its result array by the
dataset row count and is total for every size. -/
theorem c9_theorem (n k : ℕ) (rowsrc : ℕ → List ℝ)
    (hlen : ∀ j, (rowsrc j).length = n) (hk : 0 < k) :
    (n ≠ 1000 * 1000 → n ≠ 1 →
      fillPolyQueryDistances rowsrc k = Except.error PyError.shapeMismatch) ∧
    (n = 1000 * 1000 ∨ n = 1 → (fillPolyQueryDistances rowsrc k).isOk = true) ∧
    (∀ (g : Globals) (pd : List (List ℝ)), (run_msed_results g pd).length = g.data.length) := by
  refine ⟨?_, ?_, ?_⟩
  · intro hn1 hn2
    obtain ⟨m, rfl⟩ := Nat.exists_eq_succ_of_ne_zero (Nat.pos_iff_ne_zero.mp hk)
    exact fill_error_of_len n m rowsrc hlen hn1 hn2
  · exact fill_ok_of_len n k rowsrc hlen
  · intro g pd
    unfold run_msed_results
    simp

/-- C9, witness: the amended theorem at a two-row dataset with one pivot,
where the fill does fail with the shape mismatch. -/
theorem c9_witness :
    fillPolyQueryDistances (fun _ => ([0, 0] : List ℝ)) 1 =
      Except.error PyError.shapeMismatch :=
  (c9_theorem 2 1 (fun _ => ([0, 0] : List ℝ)) (fun _ => rfl) (by norm_num)).1
    (by norm_num) (by norm_num)

/-! ### Claims C3 and C6: pipeline failure behaviour -/

theorem run_simplex_error_imp (g : Globals) (srt : List ℝ → List ℕ) (i : ℕ) (e : PyError)
    (h : run_simplex g srt i = Except.error e) : e = PyError.shapeMismatch := by
  unfold run_simplex at h
  dsimp only at h
  rcases hfill : fillPolyQueryDistances
      (fun j => getDists g ((poly_query_indexes g srt i).getD j 0))
      (poly_query_indexes g srt i).length with e2 | pqd
  · rw [hfill] at h
    simp only [Except.bind] at h
    injection h with h2
    rw [← h2]
    exact fillPolyQueryDistances_error _ _ _ hfill
  · rw [hfill] at h
    simp only [Except.bind] at h
    rcases hbase : build_base
        (inter_pivot_distances ((poly_query_indexes g srt i).map (fun ix => g.data.getD ix [])))
        (poly_query_indexes g srt i).length false with e3 | base
    · have hok := build_base_false_isOk
        (inter_pivot_distances ((poly_query_indexes g srt i).map (fun ix => g.data.getD ix [])))
        (poly_query_indexes g srt i).length
      rw [hbase] at hok
      simp [Except.isOk, Except.toBool] at hok
    · rw [hbase] at h
      simp only [Except.bind] at h
      cases h

/-- A one-object collection on which the select step can choose only one
pivot: the concrete globals of the C3 counterexample. -/
noncomputable def pipelineG1 : Globals :=
  { queries := fun _ => 0
    top_categories := fun _ => 0
    data := [[0]]
    sm_data := [[0]]
    threshold := 0
    nn_at_which_k := 100
    metric := fun _ _ => 0 }

/-- Claim C3 as stated: whenever fewer than two pivots are selected, the
pipeline fails with InsufficientPivotsError. -/
def ClaimC3 : Prop :=
  ∀ (g : Globals) (srt : List ℝ → List ℕ) (i : ℕ),
    (poly_query_indexes g srt i).length < 2 →
    run_simplex g srt i = Except.error PyError.insufficientPivots

/-- C3, counterexample: on a one-object collection the select step returns
a single pivot, yet run_simplex completes and returns a result; the code
contains no pivot-count check and no InsufficientPivotsError. -/
theorem c3_counterexample : ¬ ClaimC3 := by
  intro h
  have h1 : (poly_query_indexes pipelineG1 argsortStable 0).length < 2 := by
    rw [show poly_query_indexes pipelineG1 argsortStable 0 = [0] from rfl]
    norm_num
  have h2 := h pipelineG1 argsortStable 0 h1
  have h3 : (run_simplex pipelineG1 argsortStable 0).isOk = true := rfl
  rw [h2] at h3
  simp [Except.isOk, Except.toBool] at h3

/-- C3, amended: the pipeline never fails with InsufficientPivotsError; when
fewer than two pivots can be selected it silently proceeds with however
many pivots it has (its only failure mode is the numpy shape mismatch of
the hard-coded distance buffer). -/
theorem c3_theorem (g : Globals) (srt : List ℝ → List ℕ) (i : ℕ) :
    run_simplex g srt i ≠ Except.error PyError.insufficientPivots := by
  intro h
  have h2 := run_simplex_error_imp g srt i _ h
  cases h2

theorem fromSimplexPoint_isOk (pqd : List (List ℝ)) (ipd : ℕ → ℕ → ℝ) (n : ℕ)
    (nn : List ℝ) : (fromSimplexPoint pqd ipd n nn).isOk = true := by
  unfold fromSimplexPoint
  rcases hbase : build_base ipd n false with e | base
  · have hok := build_base_false_isOk ipd n
    rw [hbase] at hok
    simp [Except.isOk, Except.toBool] at hok
  · simp [Except.map, Except.isOk, Except.toBool]

/-- C6: every build_base invocation on a production ranking path
(run_simplex and fromSimplexPoint in experiment_100.py, run_simplex in
experimentselected.py, run_experiment in simplex_harness.py) passes
validate=False, so negative radicands are clamped to zero and the build
always succeeds: DegenerateSimplexError is never raised from a ranking
path, and the full run_simplex pipeline can never surface it either. -/
theorem c6_theorem :
    (∀ (ipd : ℕ → ℕ → ℝ) (n : ℕ),
      (run_simplex_build_call ipd n).isOk = true ∧
      (fromSimplexPoint_build_call ipd n).isOk = true ∧
      (selected_run_simplex_build_call ipd n).isOk = true ∧
      (harness_run_experiment_build_call ipd n).isOk = true) ∧
    (∀ (g : Globals) (srt : List ℝ → List ℕ) (i : ℕ),
      run_simplex g srt i ≠ Except.error PyError.degenerateSimplex) ∧
    (∀ (pqd : List (List ℝ)) (ipd : ℕ → ℕ → ℝ) (n : ℕ) (nn : List ℝ),
      (fromSimplexPoint pqd ipd n nn).isOk = true) := by
  refine ⟨?_, ?_, ?_⟩
  · intro ipd n
    exact ⟨build_base_false_isOk ipd n, build_base_false_isOk ipd n,
      build_base_false_isOk ipd n, build_base_false_isOk ipd n⟩
  · intro g srt i h
    have h2 := run_simplex_error_imp g srt i _ h
    cases h2
  · exact fromSimplexPoint_isOk

/-! ### Claim C4: the select step -/

/-- C4: the select step takes the nn_at_which_k nearest neighbours of the
query under the metric in ascending distance order (the argsort of the
distance vector is an ascending permutation, its prefix is the shortlist,
and every shortlisted candidate is at least as close as every dropped one),
re-ranks exactly that shortlist (a permutation of it) in descending order
of the required category's confidence value, and takes the first 6 entries
of the re-ranked shortlist as the pivot set. -/
theorem c4_theorem (g : Globals) (srt : List ℝ → List ℕ) (i : ℕ)
    (hsrt : ∀ v : List ℝ, ArgsortSpec v (srt v)) :
    best_k_for_one_query g srt i = (srt (getDists g (g.queries i))).take g.nn_at_which_k ∧
    (srt (getDists g (g.queries i))).Perm (List.range (getDists g (g.queries i)).length) ∧
    ((srt (getDists g (g.queries i))).map
      (fun j => (getDists g (g.queries i)).getD j default)).Sorted (· ≤ ·) ∧
    (∀ x ∈ best_k_for_one_query g srt i,
      ∀ y ∈ (srt (getDists g (g.queries i))).drop g.nn_at_which_k,
        (getDists g (g.queries i)).getD x default ≤ (getDists g (g.queries i)).getD y default) ∧
    (getBestCats (g.top_categories i) (best_k_for_one_query g srt i) g.sm_data srt).Perm
      (best_k_for_one_query g srt i) ∧
    ((getBestCats (g.top_categories i) (best_k_for_one_query g srt i) g.sm_data srt).map
      (fun ix => (g.sm_data.getD ix []).getD (g.top_categories i) 0)).Sorted (· ≥ ·) ∧
    poly_query_indexes g srt i =
      (getBestCats (g.top_categories i) (best_k_for_one_query g srt i) g.sm_data srt).take 6 := by
  set dists := getDists g (g.queries i) with hdists
  set cat := g.top_categories i with hcat
  set best_k := best_k_for_one_query g srt i with hbk
  set confs := best_k.map (fun ix => (g.sm_data.getD ix []).getD cat 0) with hconfs
  have hbk_eq : best_k = (srt dists).take g.nn_at_which_k := rfl
  have hperm := (hsrt dists).1
  have hsorted := (hsrt dists).2
  have hcperm := (hsrt confs).1
  have hcsorted := (hsrt confs).2
  have hgbc : getBestCats cat best_k g.sm_data srt =
      (srt confs).reverse.map (fun j => best_k.getD j 0) := by
    simp only [getBestCats, List.map_map]
    rfl
  refine ⟨hbk_eq, hperm, hsorted, ?_, ?_, ?_, rfl⟩
  · intro x hx y hy
    have hsplit : srt dists = (srt dists).take g.nn_at_which_k ++ (srt dists).drop g.nn_at_which_k :=
      (List.take_append_drop _ _).symm
    have hpair : ((srt dists).map (fun j => dists.getD j default)).Pairwise (· ≤ ·) := hsorted
    rw [hsplit, List.map_append] at hpair
    have := (List.pairwise_append.mp hpair).2.2
    exact this _ (List.mem_map_of_mem _ (hbk_eq ▸ hx)) _ (List.mem_map_of_mem _ hy)
  · rw [hgbc]
    have h1 : (srt confs).reverse.Perm (List.range confs.length) :=
      ((srt confs).reverse_perm).trans hcperm
    have h2 : ((srt confs).reverse.map (fun j => best_k.getD j 0)).Perm
        ((List.range confs.length).map (fun j => best_k.getD j 0)) :=
      h1.map _
    have h3 : (List.range confs.length).map (fun j => best_k.getD j 0) = best_k := by
      rw [hconfs, List.length_map]
      exact getD_map_range best_k 0
    rwa [h3] at h2
  · rw [hgbc]
    have hdef : (default : ℝ) = 0 := rfl
    have hmm : ((srt confs).reverse.map (fun j => best_k.getD j 0)).map
        (fun ix => (g.sm_data.getD ix []).getD cat 0) =
        (srt confs).reverse.map (fun j => confs.getD j default) := by
      rw [List.map_map]
      apply List.map_congr_left
      intro j hj
      have hjlen : j < confs.length := by
        have hmem : j ∈ List.range confs.length :=
          (((srt confs).reverse_perm).trans hcperm).mem_iff.mp hj
        exact List.mem_range.mp hmem
      have hjbk : j < best_k.length := by
        rw [hconfs, List.length_map] at hjlen
        exact hjlen
      simp only [Function.comp]
      rw [hdef, List.getD_eq_getElem confs 0 hjlen, List.getD_eq_getElem best_k 0 hjbk]
      simp only [hconfs, List.getElem_map]
    rw [hmm, List.map_reverse]
    rw [List.Sorted, List.pairwise_reverse]
    exact hcsorted

/-- C4, witness: the select-step theorem at the concrete one-object
collection with the stable argsort. -/
theorem c4_witness :
    best_k_for_one_query pipelineG1 argsortStable 0 =
      (argsortStable (getDists pipelineG1 (pipelineG1.queries 0))).take
        pipelineG1.nn_at_which_k ∧
    (argsortStable (getDists pipelineG1 (pipelineG1.queries 0))).Perm
      (List.range (getDists pipelineG1 (pipelineG1.queries 0)).length) ∧
    ((argsortStable (getDists pipelineG1 (pipelineG1.queries 0))).map
      (fun j => (getDists pipelineG1 (pipelineG1.queries 0)).getD j default)).Sorted (· ≤ ·) ∧
    (∀ x ∈ best_k_for_one_query pipelineG1 argsortStable 0,
      ∀ y ∈ (argsortStable (getDists pipelineG1 (pipelineG1.queries 0))).drop
          pipelineG1.nn_at_which_k,
        (getDists pipelineG1 (pipelineG1.queries 0)).getD x default ≤
          (getDists pipelineG1 (pipelineG1.queries 0)).getD y default) ∧
    (getBestCats (pipelineG1.top_categories 0)
        (best_k_for_one_query pipelineG1 argsortStable 0) pipelineG1.sm_data
        argsortStable).Perm (best_k_for_one_query pipelineG1 argsortStable 0) ∧
    ((getBestCats (pipelineG1.top_categories 0)
        (best_k_for_one_query pipelineG1 argsortStable 0) pipelineG1.sm_data
        argsortStable).map
      (fun ix => (pipelineG1.sm_data.getD ix []).getD (pipelineG1.top_categories 0) 0)).Sorted
        (· ≥ ·) ∧
    poly_query_indexes pipelineG1 argsortStable 0 =
      (getBestCats (pipelineG1.top_categories 0)
        (best_k_for_one_query pipelineG1 argsortStable 0) pipelineG1.sm_data
        argsortStable).take 6 :=
  c4_theorem pipelineG1 argsortStable 0 (fun v => argsortStable_spec v)

/-! ### Claim C10: findHighlyCategorisedInDataset -/

theorem sum_indicator_eq_filter_length (P : List (List ℝ)) (p : List ℝ → Prop)
    [DecidablePred p] :
    (P.map (fun row => if p row then (1 : ℕ) else 0)).sum =
      (P.filter (fun row => decide (p row))).length := by
  induction P with
  | nil => rfl
  | cons a t ih =>
    by_cases h : p a
    · simp [h, ih, Nat.add_comm]
    · simp [h, ih]

theorem categoryCounts_getD (smData : List (List ℝ)) (thresh : ℝ)
    (hrect : ∀ row ∈ smData, row.length = numCols smData)
    (c : ℕ) (hc : c < numCols smData) :
    (categoryCounts smData thresh).getD c 0 =
      (smData.filter (fun row => decide (thresh < row.getD c 0))).length := by
  have hlen : (categoryCounts smData thresh).length = numCols smData := by
    simp [categoryCounts]
  rw [List.getD_eq_getElem _ 0 (by rw [hlen]; exact hc)]
  unfold categoryCounts
  rw [List.getElem_map, List.getElem_range]
  rw [List.map_map]
  have hcongr : (smData.map ((fun row => row.getD c 0) ∘
      (fun row => row.map (fun x => if thresh < x then (1 : ℕ) else 0)))) =
      (smData.map (fun row => if thresh < row.getD c 0 then (1 : ℕ) else 0)) := by
    apply List.map_congr_left
    intro row hrow
    simp only [Function.comp]
    have hcl : c < row.length := by rw [hrect row hrow]; exact hc
    rw [List.getD_eq_getElem _ 0 (by simpa using hcl), List.getD_eq_getElem _ 0 hcl,
      List.getElem_map]
  rw [hcongr]
  exact sum_indicator_eq_filter_length smData (fun row => thresh < row.getD c 0)

/-- C10: findHighlyCategorisedInDataset returns two arrays of equal length,
one entry per column of the softmax matrix; the second is sorted
non-increasing, and its j-th entry equals the number of rows whose value in
the column named by the first array's j-th entry is strictly greater than
the threshold. -/
theorem c10_theorem (srt : List ℕ → List ℕ) (smData : List (List ℝ)) (thresh : ℝ)
    (hsrt : ∀ v : List ℕ, ArgsortSpec v (srt v))
    (hrect : ∀ row ∈ smData, row.length = numCols smData) :
    (findHighlyCategorisedInDataset srt smData thresh).1.length = numCols smData ∧
    (findHighlyCategorisedInDataset srt smData thresh).2.length = numCols smData ∧
    (findHighlyCategorisedInDataset srt smData thresh).2.Sorted (· ≥ ·) ∧
    ∀ j, j < numCols smData →
      (findHighlyCategorisedInDataset srt smData thresh).2.getD j 0 =
        (smData.filter (fun row => decide (thresh <
          row.getD ((findHighlyCategorisedInDataset srt smData thresh).1.getD j 0) 0))).length := by
  set sums := categoryCounts smData thresh with hsums
  have hslen : sums.length = numCols smData := by simp [hsums, categoryCounts]
  have hperm := (hsrt sums).1
  have hsorted := (hsrt sums).2
  have hlen1 : (findHighlyCategorisedInDataset srt smData thresh).1.length = numCols smData := by
    show ((srt sums).reverse).length = numCols smData
    rw [List.length_reverse, hperm.length_eq, List.length_range, hslen]
  refine ⟨hlen1, ?_, ?_, ?_⟩
  · show (((srt sums).reverse).map (fun ix => sums.getD ix 0)).length = numCols smData
    rw [List.length_map, List.length_reverse, hperm.length_eq, List.length_range, hslen]
  · show (((srt sums).reverse).map (fun ix => sums.getD ix 0)).Sorted (· ≥ ·)
    have hdef : (fun ix => sums.getD ix 0) = (fun ix => sums.getD ix default) := rfl
    rw [hdef, List.map_reverse, List.Sorted, List.pairwise_reverse]
    exact hsorted
  · intro j hj
    have hjlen : j < ((srt sums).reverse).length := by rw [← hlen1] at hj; exact hj
    have h1get : (findHighlyCategorisedInDataset srt smData thresh).1.getD j 0 =
        ((srt sums).reverse).get ⟨j, hjlen⟩ := by
      show ((srt sums).reverse).getD j 0 = _
      rw [List.getD_eq_getElem _ 0 hjlen]
      rfl
    rw [h1get]
    show (((srt sums).reverse).map (fun ix => sums.getD ix 0)).getD j 0 = _
    rw [List.getD_eq_getElem _ 0 (by rw [List.length_map]; exact hjlen), List.getElem_map]
    have hc : ((srt sums).reverse).get ⟨j, hjlen⟩ < numCols smData := by
      have hmem : ((srt sums).reverse).get ⟨j, hjlen⟩ ∈ (srt sums).reverse := List.get_mem _ _ hjlen
      have hmem2 : ((srt sums).reverse).get ⟨j, hjlen⟩ ∈ List.range sums.length :=
        (((srt sums).reverse_perm).trans hperm).mem_iff.mp hmem
      rw [← hslen]
      exact List.mem_range.mp hmem2
    show (categoryCounts smData thresh).getD ((srt sums).reverse.get ⟨j, hjlen⟩) 0 = _
    rw [categoryCounts_getD smData thresh hrect _ hc]

/-- C10, witness: the theorem at the concrete one-by-one softmax matrix
with the stable argsort. -/
theorem c10_witness :
    (findHighlyCategorisedInDataset argsortStable [[0]] 0).1.length = numCols [[0]] ∧
    (findHighlyCategorisedInDataset argsortStable [[0]] 0).2.length = numCols [[0]] ∧
    (findHighlyCategorisedInDataset argsortStable [[0]] 0).2.Sorted (· ≥ ·) ∧
    ∀ j, j < numCols [[0]] →
      (findHighlyCategorisedInDataset argsortStable [[0]] 0).2.getD j 0 =
        (([[0]] : List (List ℝ)).filter (fun row => decide ((0 : ℝ) <
          row.getD ((findHighlyCategorisedInDataset argsortStable [[0]] 0).1.getD j 0) 0))).length :=
  c10_theorem argsortStable [[0]] 0 (fun v => argsortStable_spec v)
    (by intro row hr; simp only [List.mem_cons, List.not_mem_nil, or_false] at hr; subst hr; rfl)

/-! ### Claim C8: the loop-variable leak in run_perfect_point -/

/-- The distance computation of run_perfect_point (experimentselected.py
lines 139 to 158) for input index i: select the pivots for i, fill the
distance buffer, take each pivot's tenth nearest-neighbour distance, and
measure every candidate against the projected perfect point. -/
noncomputable def perfect_point_distances (g : SelGlobals) (srt : List ℝ → List ℕ)
    (i : ℕ) : Except PyError (List ℝ) :=
  let sel := select_poly_query_images g srt i num_poly_queries
  (fillPolyQueryDistances (fun j => sel_getDists g (sel.2.getD j 0))
      num_poly_queries).bind (fun pqd =>
    let st := (List.range num_poly_queries).foldl
      (fun (acc : ℕ × List ℝ) j => (j, acc.2 ++ [(npSort (pqd.getD j [])).getD 10 0]))
      (i, [])
    fromSimplexPoint pqd (inter_pivot_distances sel.1) num_poly_queries st.2)

theorem fixed_eq (g : SelGlobals) (srt : List ℝ → List ℕ) (i : ℕ) :
    run_perfect_point_fixed g srt i =
      (perfect_point_distances g srt i).bind
        (fun dd => Except.ok (compute_results g srt (num_poly_queries - 1) dd)) := by
  unfold run_perfect_point_fixed run_perfect_point_after_select perfect_point_distances
  dsimp only
  rcases hfill : fillPolyQueryDistances
      (fun j => sel_getDists g
        ((select_poly_query_images g srt i num_poly_queries).2.getD j 0))
      num_poly_queries with e | pqd
  · rfl
  · simp only [Except.bind]
    have hst : ((List.range num_poly_queries).foldl
        (fun (acc : ℕ × List ℝ) j => (j, acc.2 ++ [(npSort (pqd.getD j [])).getD 10 0]))
        (i, [])).1 = num_poly_queries - 1 := rfl
    rw [hst]

theorem sel_getDists_length (g : SelGlobals) (q : ℕ) :
    (sel_getDists g q).length = g.data.length := by
  simp [sel_getDists]

theorem ppd_ok_or (g : SelGlobals) (srt : List ℝ → List ℕ) (i : ℕ) :
    (g.data.length = 1000 * 1000 ∨ g.data.length = 1 →
      ∃ v, perfect_point_distances g srt i = Except.ok v) ∧
    (¬ (g.data.length = 1000 * 1000 ∨ g.data.length = 1) →
      perfect_point_distances g srt i = Except.error PyError.shapeMismatch) := by
  constructor
  · intro hcase
    have hfillok : (fillPolyQueryDistances
        (fun j => sel_getDists g
          ((select_poly_query_images g srt i num_poly_queries).2.getD j 0))
        num_poly_queries).isOk = true :=
      fill_ok_of_len g.data.length _ _ (fun j => sel_getDists_length g _) hcase
    obtain ⟨pqd, hpqd⟩ := (except_isOk_iff_exists _).mp hfillok
    unfold perfect_point_distances
    dsimp only
    rw [hpqd]
    simp only [Except.bind]
    exact (except_isOk_iff_exists _).mp (fromSimplexPoint_isOk _ _ _ _)
  · intro hcase
    push_neg at hcase
    unfold perfect_point_distances
    dsimp only
    have h5 : fillPolyQueryDistances
        (fun j => sel_getDists g
          ((select_poly_query_images g srt i num_poly_queries).2.getD j 0))
        num_poly_queries = Except.error PyError.shapeMismatch :=
      fill_error_of_len g.data.length 5 _ (fun j => sel_getDists_length g _) hcase.1 hcase.2
    rw [h5]
    rfl

theorem fixed_proj_const (g : SelGlobals) (srt : List ℝ → List ℕ) (i j : ℕ)
    {β : Type} (f : SelResult → β)
    (hf : ∀ d1 d2 : List ℝ, f (compute_results g srt (num_poly_queries - 1) d1) =
      f (compute_results g srt (num_poly_queries - 1) d2)) :
    (run_perfect_point_fixed g srt i).map f = (run_perfect_point_fixed g srt j).map f := by
  rw [fixed_eq g srt i, fixed_eq g srt j]
  by_cases hcase : g.data.length = 1000 * 1000 ∨ g.data.length = 1
  · obtain ⟨vi, hvi⟩ := (ppd_ok_or g srt i).1 hcase
    obtain ⟨vj, hvj⟩ := (ppd_ok_or g srt j).1 hcase
    rw [hvi, hvj]
    simp only [Except.bind, Except.map]
    rw [hf vi vj]
  · rw [(ppd_ok_or g srt i).2 hcase, (ppd_ok_or g srt j).2 hcase]

/-- C8, amended: run_perfect_point as written fails with a TypeError on its
first statement, because select_poly_query_images requires two positional
arguments and the call passes one; with that call repaired to pass the
module constant num_poly_queries (the evident intent), run_perfect_point
returns the compute_results tuple for index num_poly_queries - 1 (that is
5), not for the requested index i, because the loop for i in
range(num_poly_queries) rebinds i before compute_results(i, distances) is
called; consequently any two calls with different input indices attribute
their results to the same query and category. -/
theorem c8_theorem (g : SelGlobals) (srt : List ℝ → List ℕ) (i j : ℕ) :
    run_perfect_point g srt i = Except.error PyError.typeError ∧
    run_perfect_point_fixed g srt i =
      (perfect_point_distances g srt i).bind
        (fun dd => Except.ok (compute_results g srt (num_poly_queries - 1) dd)) ∧
    (run_perfect_point_fixed g srt i).map (fun r => r.query) =
      (run_perfect_point_fixed g srt j).map (fun r => r.query) ∧
    (run_perfect_point_fixed g srt i).map (fun r => r.cat_index) =
      (run_perfect_point_fixed g srt j).map (fun r => r.cat_index) :=
  ⟨rfl, fixed_eq g srt i,
    fixed_proj_const g srt i j (fun r => r.query) (fun d1 d2 => rfl),
    fixed_proj_const g srt i j (fun r => r.cat_index) (fun d1 d2 => rfl)⟩

/-- Trivial concrete globals for the C8 counterexample. -/
noncomputable def selG0 : SelGlobals :=
  { queries := fun _ => 0
    categories := fun _ => 0
    categoriesStr := fun _ => ""
    best_k_for_queries := fun _ => []
    data := []
    sm_data := []
    threshold := 0
    nn_at_which_k := 0
    metric := fun _ _ => 0 }

/-- Claim C8 as stated: run_perfect_point returns the result tuple computed
by compute_results for index num_poly_queries - 1. -/
def ClaimC8 : Prop :=
  ∀ (g : SelGlobals) (srt : List ℝ → List ℕ) (i : ℕ),
    ∃ dists, run_perfect_point g srt i =
      Except.ok (compute_results g srt (num_poly_queries - 1) dists)

/-- C8, counterexample: run_perfect_point never returns any tuple at all:
its select call passes one argument to a two-parameter function, so Python
raises TypeError first, as the concrete instance shows. -/
theorem c8_counterexample : ¬ ClaimC8 := by
  intro h
  obtain ⟨d, hd⟩ := h selG0 argsortStable 0
  rw [show run_perfect_point selG0 argsortStable 0 = Except.error PyError.typeError
    from rfl] at hd
  cases hd

/-- C3, witness: the amended no-insufficient-pivots theorem at the concrete
one-object collection. -/
theorem c3_witness :
    run_simplex pipelineG1 argsortStable 0 ≠ Except.error PyError.insufficientPivots :=
  c3_theorem pipelineG1 argsortStable 0

/-- C6, witness: the call-site theorem at a concrete two-pivot distance
matrix and the concrete one-object pipeline. -/
theorem c6_witness :
    (run_simplex_build_call (fun _ _ => (0 : ℝ)) 2).isOk = true ∧
    (fromSimplexPoint_build_call (fun _ _ => (0 : ℝ)) 2).isOk = true ∧
    (selected_run_simplex_build_call (fun _ _ => (0 : ℝ)) 2).isOk = true ∧
    (harness_run_experiment_build_call (fun _ _ => (0 : ℝ)) 2).isOk = true ∧
    run_simplex pipelineG1 argsortStable 0 ≠ Except.error PyError.degenerateSimplex ∧
    (fromSimplexPoint [] (fun _ _ => (0 : ℝ)) 2 []).isOk = true :=
  ⟨(c6_theorem.1 (fun _ _ => (0 : ℝ)) 2).1, (c6_theorem.1 (fun _ _ => (0 : ℝ)) 2).2.1,
    (c6_theorem.1 (fun _ _ => (0 : ℝ)) 2).2.2.1, (c6_theorem.1 (fun _ _ => (0 : ℝ)) 2).2.2.2,
    c6_theorem.2.1 pipelineG1 argsortStable 0, c6_theorem.2.2 [] (fun _ _ => (0 : ℝ)) 2 []⟩

/-- C8, witness: the amended theorem at the concrete trivial globals with
the stable argsort and two different input indices. -/
theorem c8_witness :
    run_perfect_point selG0 argsortStable 0 = Except.error PyError.typeError ∧
    run_perfect_point_fixed selG0 argsortStable 0 =
      (perfect_point_distances selG0 argsortStable 0).bind
        (fun dd => Except.ok (compute_results selG0 argsortStable (num_poly_queries - 1) dd)) ∧
    (run_perfect_point_fixed selG0 argsortStable 0).map (fun r => r.query) =
      (run_perfect_point_fixed selG0 argsortStable 1).map (fun r => r.query) ∧
    (run_perfect_point_fixed selG0 argsortStable 0).map (fun r => r.cat_index) =
      (run_perfect_point_fixed selG0 argsortStable 1).map (fun r => r.cat_index) :=
  c8_theorem selG0 argsortStable 0 1

end Simcoder
